import Mathlib

/-!
Verification development for the RAG ingestion/search pipeline in `tools.py`
of the Agentic_Rag_System repository.

The Qdrant vector index is modelled as a list of points together with a
fresh-identifier counter (standing for `uuid.uuid4()` generation, whose
collisions the data model rules out).  External effects — the filesystem,
the text splitter, the embedding service and the upsert call — are supplied
by an explicit environment record, so each Python function becomes a pure
Lean function threading the index state.
-/

namespace AgenticRag

/-- An indexed point: identifier, embedding vector, and payload
(`{"text": chunk, "file_path": path}` in the source). -/
structure Point where
  pid : Nat
  vec : List Int
  payload : List (String × String)
deriving Repr, DecidableEq

/-- The state of the Qdrant collection: its points plus the supply of fresh
point identifiers (all identifiers ever issued are below `nextId`). -/
structure IndexState where
  points : List Point
  nextId : Nat
deriving Repr, DecidableEq

/-- The content of a file as seen by `extract_text`'s MIME dispatch:
a PDF is a list of pages, each yielding optional text (`page.extract_text()
or ""` in the source); the other backends yield text or raise. -/
inductive FileContent where
  | pdf (pages : List (Option String))
  | word (r : Except String String)
  | image (r : Except String String)
  | other (r : Except String String)

/-- The external world of `create_embeddings`: the filesystem (`none` means
the path does not exist), the `MarkdownTextSplitter`, the embedding service
(which may raise), and whether the batch upsert raises. -/
structure Env where
  fs : String → Option FileContent
  split : String → List String
  embed : String → Except String (List Int)
  upsertErr : Option String

/-- Does a point's payload `file_path` exactly equal `fp`?  This is the
`Filter(must=[FieldCondition(key="file_path", match=MatchValue(value=fp))])`
of the source. -/
def matchesPath (fp : String) (p : Point) : Bool :=
  p.payload.lookup "file_path" == some fp

/-- `qdrant_client.delete` with the `file_path` filter: remove exactly the
points whose payload `file_path` equals `fp`. -/
def deleteByFilePath (s : IndexState) (fp : String) : IndexState :=
  IndexState.mk (s.points.filter (fun p => !(matchesPath fp p))) s.nextId

/-- Qdrant upsert semantics: points whose identifier collides with an
incoming point are replaced; all incoming points are inserted. -/
def upsertList (old new : List Point) : List Point :=
  old.filter (fun p => new.all (fun q => q.pid != p.pid)) ++ new

/-- Per-backend extraction, the body of `extract_text`'s `try`:
a PDF joins per-page text with a newline, a page with no text contributing
the empty string; the other backends return their text or raise. -/
def extractBackend : FileContent → Except String String
  | FileContent.pdf pages =>
      Except.ok (String.intercalate "\n" (pages.map (fun p => p.getD "")))
  | FileContent.word r => r
  | FileContent.image r => r
  | FileContent.other r => r

/-- `extract_text(file_path)`: raise `FileNotFoundError` on a missing path,
otherwise dispatch on the detected type and wrap any backend failure in a
`ValueError` carrying the original cause. -/
def extract_text (env : Env) (fp : String) : Except String String :=
  match env.fs fp with
  | none => Except.error ("File not found: " ++ fp)
  | some fc =>
    match extractBackend fc with
    | Except.ok t => Except.ok t
    | Except.error e =>
        Except.error ("Unsupported file type or extraction error: " ++ e)

/-- Embed every chunk in order, as the point-list comprehension does;
the first embedding failure aborts the whole list. -/
def embedAll (env : Env) : List String → Except String (List (List Int))
  | [] => Except.ok []
  | c :: cs =>
    match env.embed c with
    | Except.error e => Except.error e
    | Except.ok v =>
      match embedAll env cs with
      | Except.error e => Except.error e
      | Except.ok vs => Except.ok (v :: vs)

/-- Build the `PointStruct` list: one point per chunk/vector pair, with a
freshly generated identifier and payload `{"text": chunk, "file_path": fp}`. -/
def mkPoints (fp : String) : Nat → List (String × List Int) → List Point
  | _, [] => []
  | n, (c, v) :: rest =>
      Point.mk n v [("text", c), ("file_path", fp)] :: mkPoints fp (n + 1) rest

/-- The structured result dictionary of `create_embeddings`, as the
association list of its entries, together with the resulting index state. -/
structure IngestOutcome where
  result : List (String × String)
  state : IndexState
deriving Repr, DecidableEq

/-- `{"status": "error", "message": msg}`. -/
def errResult (msg : String) : List (String × String) :=
  [("status", "error"), ("message", msg)]

/-- The emptiness test `not text.strip()` of the source: a string strips to
the empty string exactly when every one of its characters is whitespace. -/
def isBlank (t : String) : Bool := t.data.all Char.isWhitespace

/-- `create_embeddings(file_path, overwrite)` from `tools.py`:
check existence, optionally delete the path's existing points, extract text,
reject empty text, chunk, embed each chunk, and upsert the new points in one
batch; every failure inside the `try` becomes a structured error result. -/
def create_embeddings (env : Env) (s : IndexState) (file_path : String)
    (overwrite : Bool) : IngestOutcome :=
  match env.fs file_path with
  | none => IngestOutcome.mk (errResult "File not found") s
  | some _ =>
    let s1 := if overwrite then deleteByFilePath s file_path else s
    match extract_text env file_path with
    | Except.error e => IngestOutcome.mk (errResult e) s1
    | Except.ok text =>
      if isBlank text then
        IngestOutcome.mk (errResult "No text extracted from the file") s1
      else
        let chunks := env.split text
        match embedAll env chunks with
        | Except.error e => IngestOutcome.mk (errResult e) s1
        | Except.ok vecs =>
          let pts := mkPoints file_path s1.nextId (chunks.zip vecs)
          match env.upsertErr with
          | some e => IngestOutcome.mk (errResult e) s1
          | none =>
            IngestOutcome.mk
              [("status", "success"),
               ("message",
                "Document added with " ++ toString pts.length ++ " chunks")]
              (IndexState.mk (upsertList s1.points pts) (s1.nextId + pts.length))

/-- A search result entry, the `{"text": ...}` dictionary of the source. -/
structure SearchEntry where
  text : String
deriving Repr, DecidableEq

/-- The external world of `qdrant_search`: embedding the query and querying
the index, either of which may raise. -/
structure SearchEnv where
  embedQ : String → Except String (List Int)
  queryPoints : List Int → Nat → Except String (List Point)

/-- `qdrant_search(query, top_k)` from `tools.py`: embed the query, run the
top-k similarity lookup, and map each hit to its `text` payload (missing
payload yields the empty string); any failure is caught and returned as a
single error entry. -/
def qdrant_search (env : SearchEnv) (query : String) (top_k : Nat) :
    List SearchEntry :=
  match env.embedQ query with
  | Except.error e =>
      [SearchEntry.mk ("Error searching documents: " ++ e)]
  | Except.ok v =>
    match env.queryPoints v top_k with
    | Except.error e =>
        [SearchEntry.mk ("Error searching documents: " ++ e)]
    | Except.ok pts =>
        pts.map (fun p => SearchEntry.mk ((p.payload.lookup "text").getD ""))

/-- A Qdrant collection as `create_collection` sees it: its name, vector
dimensionality, distance metric, and the fields of its payload schema. -/
structure Collection where
  name : String
  dim : Nat
  metric : String
  payload_schema : List String
deriving Repr, DecidableEq

/-- The Qdrant backend state for collection management. -/
structure QState where
  colls : List Collection
deriving Repr, DecidableEq

/-- A create operation issued to the backend by `create_collection`. -/
inductive QOp where
  | mkCollection (name : String) (dim : Nat) (metric : String)
  | mkPayloadIndex (name field : String)
deriving Repr, DecidableEq

/-- The failure switches of the four backend calls `create_collection`
makes; `none` means the call succeeds. -/
structure CCEnv where
  getCollectionsErr : Option String
  createCollectionErr : Option String
  getCollectionErr : Option String
  createIndexErr : Option String
deriving Repr, DecidableEq

/-- The process-wide collection name (`COLLECTION_NAME`, defaulting to
`"gemini-embeddings"`). -/
def COLLECTION_NAME : String := "gemini-embeddings"

/-- `qdrant_client.create_collection(...)` with `size=768`,
`distance=Distance.COSINE`: append a fresh collection with empty schema. -/
def applyCreateCollection (s : QState) : QState :=
  QState.mk (s.colls ++ [Collection.mk COLLECTION_NAME 768 "Cosine" []])

/-- `qdrant_client.get_collection(COLLECTION_NAME)`. -/
def findColl (s : QState) : Option Collection :=
  s.colls.find? (fun c => c.name == COLLECTION_NAME)

/-- `qdrant_client.create_payload_index(..., field_name="file_path",
field_schema=PayloadSchemaType.KEYWORD)`. -/
def applyCreateIndex (s : QState) : QState :=
  QState.mk (s.colls.map (fun c =>
    if c.name == COLLECTION_NAME then
      Collection.mk c.name c.dim c.metric (c.payload_schema ++ ["file_path"])
    else c))

/-- The second half of `create_collection`: fetch the collection and create
the `file_path` keyword payload index when the schema lacks it. -/
def ensureIndexStep (env : CCEnv) (s : QState) (ops : List QOp) :
    Except String (QState × List QOp) :=
  match env.getCollectionErr with
  | some e => Except.error e
  | none =>
    match findColl s with
    | none => Except.error "collection not found"
    | some c =>
      if c.payload_schema.contains "file_path" then Except.ok (s, ops)
      else
        match env.createIndexErr with
        | some e => Except.error e
        | none =>
            Except.ok (applyCreateIndex s,
              ops ++ [QOp.mkPayloadIndex COLLECTION_NAME "file_path"])

/-- `create_collection()` from `tools.py`: list the collections, create the
named one (768-dimensional, cosine) when absent, then ensure the `file_path`
keyword payload index; any backend failure is logged and re-raised.  The
returned list records the create operations actually issued. -/
def create_collection (env : CCEnv) (s : QState) :
    Except String (QState × List QOp) :=
  match env.getCollectionsErr with
  | some e => Except.error e
  | none =>
    if (s.colls.map (fun c => c.name)).contains COLLECTION_NAME then
      ensureIndexStep env s []
    else
      match env.createCollectionErr with
      | some e => Except.error e
      | none =>
          ensureIndexStep env (applyCreateCollection s)
            [QOp.mkCollection COLLECTION_NAME 768 "Cosine"]

/-- The identifier supply invariant: every indexed point's identifier was
issued below the counter, so freshly generated identifiers never collide
with existing points (the model of `uuid.uuid4()` uniqueness). -/
def goodState (s : IndexState) : Prop :=
  ∀ p ∈ s.points, p.pid < s.nextId

instance (s : IndexState) : Decidable (goodState s) := by
  unfold goodState; infer_instance

/-- The state `create_embeddings` works from after the optional scoped
delete. -/
def afterDelete (s : IndexState) (fp : String) (ow : Bool) : IndexState :=
  if ow then deleteByFilePath s fp else s

/-- The chunk list the ingestion of `fp` would feed to the embedder. -/
def ingestChunks (env : Env) (fp : String) : List String :=
  match extract_text env fp with
  | Except.error _ => []
  | Except.ok t => env.split t

/-- How many indexed points carry payload `file_path = fp`. -/
def countFor (s : IndexState) (fp : String) : Nat :=
  s.points.countP (fun p => matchesPath fp p)

/-! ### Helper lemmas -/

lemma embedAll_ok_length (env : Env) :
    ∀ cs vs, embedAll env cs = Except.ok vs → vs.length = cs.length := by
  intro cs
  induction cs with
  | nil => intro vs h; simp [embedAll] at h; simp [← h]
  | cons c cs ih =>
    intro vs h
    simp only [embedAll] at h
    cases hc : env.embed c with
    | error e => rw [hc] at h; exact absurd h (by simp)
    | ok v =>
      rw [hc] at h
      cases hr : embedAll env cs with
      | error e => rw [hr] at h; exact absurd h (by simp)
      | ok vs2 =>
        rw [hr] at h
        cases h
        simp [ih vs2 hr]

lemma mkPoints_length (fp : String) :
    ∀ (n : Nat) (l : List (String × List Int)),
      (mkPoints fp n l).length = l.length := by
  intro n l
  induction l generalizing n with
  | nil => rfl
  | cons cv rest ih => cases cv; simp [mkPoints, ih]

lemma mkPoints_mem (fp : String) :
    ∀ (n : Nat) (l : List (String × List Int)) (q : Point),
      q ∈ mkPoints fp n l →
        n ≤ q.pid ∧ q.pid < n + l.length ∧
          q.payload.lookup "file_path" = some fp := by
  intro n l
  induction l generalizing n with
  | nil => intro q h; simp [mkPoints] at h
  | cons cv rest ih =>
    intro q h
    cases cv with
    | mk c v =>
      simp only [mkPoints, List.mem_cons] at h
      rcases h with h | h
      · subst h
        refine ⟨le_refl _, ?_, rfl⟩
        simp only [List.length_cons]
        omega
      · rcases ih (n + 1) q h with ⟨h1, h2, h3⟩
        refine ⟨Nat.le_of_succ_le h1, ?_, h3⟩
        simp only [List.length_cons]
        omega

lemma upsertList_nil (old : List Point) : upsertList old [] = old := by
  simp [upsertList]

lemma upsertList_fresh (old new : List Point)
    (h : ∀ q ∈ new, ∀ p ∈ old, q.pid ≠ p.pid) :
    upsertList old new = old ++ new := by
  unfold upsertList
  congr 1
  rw [List.filter_eq_self]
  intro p hp
  rw [List.all_eq_true]
  intro q hq
  simpa using h q hq p hp

lemma afterDelete_nextId (s : IndexState) (fp : String) (ow : Bool) :
    (afterDelete s fp ow).nextId = s.nextId := by
  cases ow <;> rfl

lemma afterDelete_points_subset (s : IndexState) (fp : String) (ow : Bool)
    (p : Point) (h : p ∈ (afterDelete s fp ow).points) : p ∈ s.points := by
  cases ow with
  | false => exact h
  | true =>
    simp only [afterDelete, if_pos, deleteByFilePath] at h
    exact (List.mem_filter.mp h).1

lemma afterDelete_mem (s : IndexState) (fp : String) (ow : Bool) (p : Point)
    (hp : p ∈ s.points) (hm : matchesPath fp p = false) :
    p ∈ (afterDelete s fp ow).points := by
  cases ow with
  | false => exact hp
  | true =>
    simp only [afterDelete, if_pos, deleteByFilePath]
    exact List.mem_filter.mpr ⟨hp, by simp [hm]⟩

lemma deleteByFilePath_count (s : IndexState) (fp : String) :
    countFor (deleteByFilePath s fp) fp = 0 := by
  simp only [countFor, deleteByFilePath, List.countP_eq_zero]
  intro p hp
  simp only [List.mem_filter, Bool.not_eq_eq_eq_not, Bool.not_true] at hp
  simp [hp.2]

/-! ### Branch evaluation lemmas for `create_embeddings` -/

lemma ce_missing (env : Env) (s : IndexState) (fp : String) (ow : Bool)
    (hfc : env.fs fp = none) :
    create_embeddings env s fp ow =
      IngestOutcome.mk (errResult "File not found") s := by
  simp [create_embeddings, hfc]

lemma ce_extract_err (env : Env) (s : IndexState) (fp : String) (ow : Bool)
    (fc : FileContent) (e : String) (hfc : env.fs fp = some fc)
    (hxt : extract_text env fp = Except.error e) :
    create_embeddings env s fp ow =
      IngestOutcome.mk (errResult e) (afterDelete s fp ow) := by
  simp only [create_embeddings, hfc, afterDelete]
  rw [hxt]

lemma ce_empty (env : Env) (s : IndexState) (fp : String) (ow : Bool)
    (fc : FileContent) (t : String) (hfc : env.fs fp = some fc)
    (hxt : extract_text env fp = Except.ok t) (htr : isBlank t = true) :
    create_embeddings env s fp ow =
      IngestOutcome.mk (errResult "No text extracted from the file")
        (afterDelete s fp ow) := by
  simp only [create_embeddings, hfc, afterDelete]
  rw [hxt]
  simp [htr]

lemma ce_embed_err (env : Env) (s : IndexState) (fp : String) (ow : Bool)
    (fc : FileContent) (t : String) (e : String) (hfc : env.fs fp = some fc)
    (hxt : extract_text env fp = Except.ok t) (htr : isBlank t = false)
    (hem : embedAll env (env.split t) = Except.error e) :
    create_embeddings env s fp ow =
      IngestOutcome.mk (errResult e) (afterDelete s fp ow) := by
  simp only [create_embeddings, hfc, afterDelete]
  rw [hxt]
  simp only [htr, Bool.false_eq_true, if_false, ite_false]
  rw [hem]

lemma ce_upsert_err (env : Env) (s : IndexState) (fp : String) (ow : Bool)
    (fc : FileContent) (t : String) (vecs : List (List Int)) (e : String)
    (hfc : env.fs fp = some fc)
    (hxt : extract_text env fp = Except.ok t) (htr : isBlank t = false)
    (hem : embedAll env (env.split t) = Except.ok vecs)
    (hup : env.upsertErr = some e) :
    create_embeddings env s fp ow =
      IngestOutcome.mk (errResult e) (afterDelete s fp ow) := by
  simp only [create_embeddings, hfc, afterDelete]
  rw [hxt]
  simp only [htr, Bool.false_eq_true, if_false, ite_false]
  rw [hem, hup]

lemma ce_success (env : Env) (s : IndexState) (fp : String) (ow : Bool)
    (fc : FileContent) (t : String) (vecs : List (List Int))
    (hfc : env.fs fp = some fc)
    (hxt : extract_text env fp = Except.ok t) (htr : isBlank t = false)
    (hem : embedAll env (env.split t) = Except.ok vecs)
    (hup : env.upsertErr = none) :
    create_embeddings env s fp ow =
      IngestOutcome.mk
        [("status", "success"),
         ("message", "Document added with " ++
            toString (mkPoints fp (afterDelete s fp ow).nextId
              ((env.split t).zip vecs)).length ++ " chunks")]
        (IndexState.mk
          (upsertList (afterDelete s fp ow).points
            (mkPoints fp (afterDelete s fp ow).nextId
              ((env.split t).zip vecs)))
          ((afterDelete s fp ow).nextId +
            (mkPoints fp (afterDelete s fp ow).nextId
              ((env.split t).zip vecs)).length)) := by
  simp only [create_embeddings, hfc, afterDelete]
  rw [hxt]
  simp only [htr, Bool.false_eq_true, if_false, ite_false]
  rw [hem, hup]

/-- Structure-eta for the index state. -/
lemma IndexState.mk_eta (x : IndexState) :
    IndexState.mk x.points x.nextId = x := rfl

/-- The shape of any `create_embeddings` run on an existing file: some list
of new points (empty on error) with fresh identifiers and the file's payload
path is upserted over the post-delete state, and the structured result is
either the success dictionary reporting that list's length or an error
dictionary. -/
def ceShape (env : Env) (s : IndexState) (fp : String) (ow : Bool) : Prop :=
  ∃ newPts : List Point,
    (create_embeddings env s fp ow).state =
      IndexState.mk (upsertList (afterDelete s fp ow).points newPts)
        (s.nextId + newPts.length) ∧
    (∀ q ∈ newPts, s.nextId ≤ q.pid ∧ q.pid < s.nextId + newPts.length ∧
      q.payload.lookup "file_path" = some fp) ∧
    ((create_embeddings env s fp ow).result.lookup "status" = some "success" →
      newPts.length = (ingestChunks env fp).length ∧
      (create_embeddings env s fp ow).result =
        [("status", "success"),
         ("message", "Document added with " ++ toString newPts.length ++
           " chunks")]) ∧
    ((create_embeddings env s fp ow).result.lookup "status" ≠ some "success" →
      newPts = [] ∧
      ∃ m, (create_embeddings env s fp ow).result = errResult m)

lemma errOutcome_shape (env : Env) (s : IndexState) (fp : String) (ow : Bool)
    (e : String)
    (h : create_embeddings env s fp ow =
      IngestOutcome.mk (errResult e) (afterDelete s fp ow)) :
    ceShape env s fp ow := by
  refine ⟨[], ?_, ?_, ?_, ?_⟩
  · rw [h]
    show afterDelete s fp ow = _
    rw [upsertList_nil, List.length_nil, Nat.add_zero, ← afterDelete_nextId s fp ow,
      IndexState.mk_eta]
  · intro q hq
    exact absurd hq (List.not_mem_nil q)
  · intro hst
    rw [h] at hst
    have : (errResult e).lookup "status" = some "error" := rfl
    rw [show (IngestOutcome.mk (errResult e) (afterDelete s fp ow)).result
        = errResult e from rfl, this] at hst
    exact absurd (Option.some.inj hst) (by decide)
  · intro _
    exact ⟨rfl, e, by rw [h]⟩

lemma create_embeddings_shape (env : Env) (s : IndexState) (fp : String)
    (ow : Bool) (fc : FileContent) (hfc : env.fs fp = some fc) :
    ceShape env s fp ow := by
  cases hxt : extract_text env fp with
  | error e => exact errOutcome_shape env s fp ow e (ce_extract_err env s fp ow fc e hfc hxt)
  | ok t =>
    cases htr : isBlank t with
    | true =>
      exact errOutcome_shape env s fp ow _ (ce_empty env s fp ow fc t hfc hxt htr)
    | false =>
      cases hem : embedAll env (env.split t) with
      | error e =>
        exact errOutcome_shape env s fp ow e
          (ce_embed_err env s fp ow fc t e hfc hxt htr hem)
      | ok vecs =>
        cases hup : env.upsertErr with
        | some e =>
          exact errOutcome_shape env s fp ow e
            (ce_upsert_err env s fp ow fc t vecs e hfc hxt htr hem hup)
        | none =>
          have h := ce_success env s fp ow fc t vecs hfc hxt htr hem hup
          refine ⟨mkPoints fp (afterDelete s fp ow).nextId
            ((env.split t).zip vecs), ?_, ?_, ?_, ?_⟩
          · rw [h, afterDelete_nextId]
          · intro q hq
            have hm := mkPoints_mem fp (afterDelete s fp ow).nextId
              ((env.split t).zip vecs) q hq
            rw [afterDelete_nextId] at hm
            rw [mkPoints_length]
            exact hm
          · intro _
            refine ⟨?_, by rw [h]⟩
            rw [mkPoints_length, List.length_zip,
              embedAll_ok_length env (env.split t) vecs hem]
            simp [ingestChunks, hxt]
          · intro hst
            exfalso
            apply hst
            rw [h]
            rfl

lemma upsertList_afterDelete_fresh (s : IndexState) (fp : String) (ow : Bool)
    (newPts : List Point) (hinv : goodState s)
    (hfresh : ∀ q ∈ newPts, s.nextId ≤ q.pid) :
    upsertList (afterDelete s fp ow).points newPts =
      (afterDelete s fp ow).points ++ newPts := by
  apply upsertList_fresh
  intro q hq p hp
  have h1 := hfresh q hq
  have h2 := hinv p (afterDelete_points_subset s fp ow p hp)
  omega

/-- Every ingestion call preserves the identifier-supply invariant, so the
`goodState` hypothesis of the theorems below holds in every reachable
index state. -/
lemma create_embeddings_goodState (env : Env) (s : IndexState) (fp : String)
    (ow : Bool) (hinv : goodState s) :
    goodState (create_embeddings env s fp ow).state := by
  cases hfc : env.fs fp with
  | none => rw [ce_missing env s fp ow hfc]; exact hinv
  | some fc =>
    rcases create_embeddings_shape env s fp ow fc hfc with
      ⟨newPts, hstate, hmem, _, _⟩
    rw [hstate]
    intro p hp
    show p.pid < s.nextId + newPts.length
    rw [upsertList_afterDelete_fresh s fp ow newPts hinv
      (fun q hq => (hmem q hq).1)] at hp
    rcases List.mem_append.mp hp with hold | hnew
    · have := hinv p (afterDelete_points_subset s fp ow p hold)
      omega
    · exact (hmem p hnew).2.1

lemma errResult_status_ne (e : String) (s1 : IndexState) :
    (IngestOutcome.mk (errResult e) s1).result.lookup "status" ≠
      some "success" := by
  intro hx
  have hv : List.lookup "status" (errResult e) = some "error" := rfl
  rw [show (IngestOutcome.mk (errResult e) s1).result = errResult e from rfl,
    hv] at hx
  exact absurd (Option.some.inj hx) (by decide)

lemma qdrant_search_embed_err (env : SearchEnv) (q : String) (k : Nat)
    (e : String) (he : env.embedQ q = Except.error e) :
    qdrant_search env q k =
      [SearchEntry.mk ("Error searching documents: " ++ e)] := by
  simp only [qdrant_search]
  rw [he]

lemma qdrant_search_query_err (env : SearchEnv) (q : String) (k : Nat)
    (v : List Int) (e : String) (hv : env.embedQ q = Except.ok v)
    (he : env.queryPoints v k = Except.error e) :
    qdrant_search env q k =
      [SearchEntry.mk ("Error searching documents: " ++ e)] := by
  simp only [qdrant_search, hv, he]

lemma errEntry_text_ne (e : String) :
    ("Error searching documents: " ++ e) ≠ "" := by
  intro hx
  have h1 : ("Error searching documents: " ++ e).length = 0 := by
    rw [hx]; rfl
  rw [String.length_append] at h1
  have h2 : ("Error searching documents: " : String).length = 27 := rfl
  omega

/-! ### Concrete fixtures used by the witnesses and counterexamples -/

/-- An empty index with its identifier counter at zero. -/
def emptyState : IndexState := IndexState.mk [] 0

/-- A point indexed from file `A.txt`. -/
def pA : Point := Point.mk 0 [1] [("text", "alpha"), ("file_path", "A.txt")]

/-- A point indexed from file `B.txt`. -/
def pB : Point := Point.mk 1 [2] [("text", "beta"), ("file_path", "B.txt")]

/-- An index holding one chunk point each of files `A.txt` and `B.txt`. -/
def sAB : IndexState := IndexState.mk [pA, pB] 2

/-- A filesystem with no files at all. -/
def envMissing : Env :=
  Env.mk (fun _ => none) (fun t => [t]) (fun _ => Except.ok [1]) none

/-- Every path holds a plain-text file reading `hello world`; splitting
yields one chunk, embedding and upsert succeed. -/
def envOkDoc : Env :=
  Env.mk (fun _ => some (FileContent.other (Except.ok "hello world")))
    (fun t => [t]) (fun _ => Except.ok [1, 2]) none

/-- Every path holds a file whose extracted text is whitespace only. -/
def envBlank : Env :=
  Env.mk (fun _ => some (FileContent.other (Except.ok "  ")))
    (fun t => [t]) (fun _ => Except.ok [1]) none

/-- Extraction and embedding succeed but the batch upsert raises. -/
def envUpsertFail : Env :=
  Env.mk (fun _ => some (FileContent.other (Except.ok "hello world")))
    (fun t => [t]) (fun _ => Except.ok [1]) (some "upsert failed")

/-- A search world whose embedding call raises. -/
def searchEnvFail : SearchEnv :=
  SearchEnv.mk (fun _ => Except.error "embedding down")
    (fun _ _ => Except.ok [])

/-! ### The claims -/

/-- Claim C5: for every path that does not exist on the filesystem,
`create_embeddings` returns a structured error result (a value, not an
exception) whose status is `"error"` and whose message contains
`"not found"`. -/
theorem create_embeddings_missing_file_error (env : Env) (s : IndexState)
    (fp : String) (ow : Bool) (h : env.fs fp = none) :
    (create_embeddings env s fp ow).result.lookup "status" = some "error" ∧
    ∃ m a b,
      (create_embeddings env s fp ow).result.lookup "message" = some m ∧
      m = a ++ "not found" ++ b := by
  rw [ce_missing env s fp ow h]
  exact ⟨rfl, "File not found", "File ", "", rfl, rfl⟩

theorem create_embeddings_missing_file_error_witness :
    (create_embeddings envMissing emptyState "/no/such/file" true).result.lookup
        "status" = some "error" ∧
    ∃ m a b,
      (create_embeddings envMissing emptyState "/no/such/file"
          true).result.lookup "message" = some m ∧
      m = a ++ "not found" ++ b :=
  create_embeddings_missing_file_error envMissing emptyState "/no/such/file"
    true rfl

/-- Claim C10: for every path that does not exist, `create_embeddings`
performs no index operation at all — the index state is exactly unchanged,
even when `overwrite` is true, because the existence check precedes the
scoped delete. -/
theorem create_embeddings_missing_file_no_index_op (env : Env)
    (s : IndexState) (fp : String) (ow : Bool) (h : env.fs fp = none) :
    (create_embeddings env s fp ow).state = s ∧
    (create_embeddings env s fp ow).result = errResult "File not found" := by
  rw [ce_missing env s fp ow h]
  exact ⟨rfl, rfl⟩

theorem create_embeddings_missing_file_no_index_op_witness :
    (create_embeddings envMissing sAB "A.txt" true).state = sAB ∧
    (create_embeddings envMissing sAB "A.txt" true).result =
      errResult "File not found" :=
  create_embeddings_missing_file_no_index_op envMissing sAB "A.txt" true rfl

/-- Claim C4: whenever the embedding call or the index query fails,
`qdrant_search` returns exactly a one-element sequence whose single entry
carries a non-empty error string in its `text` field — never an empty
sequence, and never an exception (the function is total). -/
theorem qdrant_search_degrades (env : SearchEnv) (q : String) (k : Nat)
    (h : (∃ e, env.embedQ q = Except.error e) ∨
      ∃ v e, env.embedQ q = Except.ok v ∧
        env.queryPoints v k = Except.error e) :
    (qdrant_search env q k).length = 1 ∧
    ∀ entry ∈ qdrant_search env q k, entry.text ≠ "" := by
  have hcase : ∃ e, qdrant_search env q k =
      [SearchEntry.mk ("Error searching documents: " ++ e)] := by
    rcases h with ⟨e, he⟩ | ⟨v, e, hv, he⟩
    · exact ⟨e, qdrant_search_embed_err env q k e he⟩
    · exact ⟨e, qdrant_search_query_err env q k v e hv he⟩
  rcases hcase with ⟨e, hq⟩
  rw [hq]
  refine ⟨rfl, ?_⟩
  intro entry hentry
  rw [List.mem_singleton] at hentry
  subst hentry
  exact errEntry_text_ne e

theorem qdrant_search_degrades_witness :
    (qdrant_search searchEnvFail "any query" 5).length = 1 ∧
    ∀ entry ∈ qdrant_search searchEnvFail "any query" 5, entry.text ≠ "" :=
  qdrant_search_degrades searchEnvFail "any query" 5
    (Or.inl ⟨"embedding down", rfl⟩)

/-- Claim C3: for every file whose extracted text is empty or
whitespace-only, `create_embeddings` returns status `"error"` with the
no-text message, adds no new point to the index, and never reaches the
chunker, the embedder, or the upsert: the outcome is identical under any
environment that agrees on the filesystem. -/
theorem create_embeddings_empty_text_rejected (env : Env) (s : IndexState)
    (fp : String) (ow : Bool) (fc : FileContent) (t : String)
    (hfc : env.fs fp = some fc) (hxt : extractBackend fc = Except.ok t)
    (htr : isBlank t = true) :
    (create_embeddings env s fp ow).result =
      errResult "No text extracted from the file" ∧
    (∀ p ∈ (create_embeddings env s fp ow).state.points, p ∈ s.points) ∧
    ∀ env2 : Env, env2.fs = env.fs →
      create_embeddings env2 s fp ow = create_embeddings env s fp ow := by
  have hx : extract_text env fp = Except.ok t := by
    simp [extract_text, hfc, hxt]
  have h := ce_empty env s fp ow fc t hfc hx htr
  refine ⟨by rw [h], ?_, ?_⟩
  · intro p hp
    rw [h] at hp
    exact afterDelete_points_subset s fp ow p hp
  · intro env2 hfs
    have hfc2 : env2.fs fp = some fc := by rw [hfs]; exact hfc
    have hx2 : extract_text env2 fp = Except.ok t := by
      simp [extract_text, hfc2, hxt]
    rw [ce_empty env2 s fp ow fc t hfc2 hx2 htr, h]

theorem create_embeddings_empty_text_rejected_witness :
    (create_embeddings envBlank sAB "A.txt" true).result =
      errResult "No text extracted from the file" ∧
    (∀ p ∈ (create_embeddings envBlank sAB "A.txt" true).state.points,
      p ∈ sAB.points) ∧
    ∀ env2 : Env, env2.fs = envBlank.fs →
      create_embeddings env2 sAB "A.txt" true =
        create_embeddings envBlank sAB "A.txt" true :=
  create_embeddings_empty_text_rejected envBlank sAB "A.txt" true
    (FileContent.other (Except.ok "  ")) "  " rfl rfl (by decide)

/-- Claim C2: re-ingesting path `A` with `overwrite=true` deletes only
points whose payload `file_path` exactly equals `A`: every point of any
other file present before the call is still present and unaltered after it,
and a point removed by the call necessarily carried payload `file_path = A`. -/
theorem create_embeddings_overwrite_scoped (env : Env) (s : IndexState)
    (fpA : String) (hinv : goodState s) :
    (∀ p ∈ s.points, matchesPath fpA p = false →
      p ∈ (create_embeddings env s fpA true).state.points) ∧
    (∀ p ∈ s.points, p ∉ (create_embeddings env s fpA true).state.points →
      matchesPath fpA p = true) := by
  cases hfc : env.fs fpA with
  | none =>
    rw [ce_missing env s fpA true hfc]
    constructor
    · intro p hp _
      exact hp
    · intro p hp hnp
      exact absurd hp hnp
  | some fc =>
    rcases create_embeddings_shape env s fpA true fc hfc with
      ⟨newPts, hstate, hmem, _, _⟩
    have happ := upsertList_afterDelete_fresh s fpA true newPts hinv
      (fun q hq => (hmem q hq).1)
    constructor
    · intro p hp hm
      rw [hstate]
      show p ∈ upsertList (afterDelete s fpA true).points newPts
      rw [happ]
      exact List.mem_append.mpr (Or.inl (afterDelete_mem s fpA true p hp hm))
    · intro p hp hnp
      cases hb : matchesPath fpA p with
      | true => rfl
      | false =>
        exfalso
        apply hnp
        rw [hstate]
        show p ∈ upsertList (afterDelete s fpA true).points newPts
        rw [happ]
        exact List.mem_append.mpr (Or.inl (afterDelete_mem s fpA true p hp hb))

theorem create_embeddings_overwrite_scoped_witness :
    (∀ p ∈ sAB.points, matchesPath "A.txt" p = false →
      p ∈ (create_embeddings envOkDoc sAB "A.txt" true).state.points) ∧
    (∀ p ∈ sAB.points,
      p ∉ (create_embeddings envOkDoc sAB "A.txt" true).state.points →
      matchesPath "A.txt" p = true) :=
  create_embeddings_overwrite_scoped envOkDoc sAB "A.txt" (by decide)

/-- Claim C9: with `overwrite=false` no point is ever deleted — the new
state extends the old point list — every added point carries the ingested
path and a freshly generated identifier distinct from all existing ones,
and the number of points indexed for that path grows by the added count
(one per chunk on success), so repeated ingestion accumulates duplicates. -/
theorem create_embeddings_no_overwrite_accumulates (env : Env)
    (s : IndexState) (fp : String) (hinv : goodState s) :
    ∃ newPts : List Point,
      (create_embeddings env s fp false).state.points = s.points ++ newPts ∧
      (∀ q ∈ newPts, q.payload.lookup "file_path" = some fp ∧
        ∀ p ∈ s.points, q.pid ≠ p.pid) ∧
      countFor (create_embeddings env s fp false).state fp =
        countFor s fp + newPts.length ∧
      ((create_embeddings env s fp false).result.lookup "status" =
          some "success" → newPts.length = (ingestChunks env fp).length) := by
  cases hfc : env.fs fp with
  | none =>
    refine ⟨[], ?_, ?_, ?_, ?_⟩
    · rw [ce_missing env s fp false hfc, List.append_nil]
    · intro q hq
      exact absurd hq (List.not_mem_nil q)
    · rw [ce_missing env s fp false hfc]
      rfl
    · rw [ce_missing env s fp false hfc]
      intro hx
      exact absurd (Option.some.inj hx) (by decide)
  | some fc =>
    rcases create_embeddings_shape env s fp false fc hfc with
      ⟨newPts, hstate, hmem, hsucc, _⟩
    have happ := upsertList_afterDelete_fresh s fp false newPts hinv
      (fun q hq => (hmem q hq).1)
    have hpoints : (create_embeddings env s fp false).state.points =
        s.points ++ newPts := by
      rw [hstate]
      show upsertList (afterDelete s fp false).points newPts = _
      rw [happ]
      rfl
    refine ⟨newPts, hpoints, ?_, ?_, fun h => (hsucc h).1⟩
    · intro q hq
      refine ⟨(hmem q hq).2.2, ?_⟩
      intro p hp
      have h1 := (hmem q hq).1
      have h2 := hinv p hp
      omega
    · show (create_embeddings env s fp false).state.points.countP _ =
        s.points.countP _ + newPts.length
      rw [hpoints, List.countP_append]
      congr 1
      rw [List.countP_eq_length]
      intro q hq
      have := (hmem q hq).2.2
      simp [matchesPath, this]

theorem create_embeddings_no_overwrite_accumulates_witness :
    ∃ newPts : List Point,
      (create_embeddings envOkDoc sAB "A.txt" false).state.points =
        sAB.points ++ newPts ∧
      (∀ q ∈ newPts, q.payload.lookup "file_path" = some "A.txt" ∧
        ∀ p ∈ sAB.points, q.pid ≠ p.pid) ∧
      countFor (create_embeddings envOkDoc sAB "A.txt" false).state "A.txt" =
        countFor sAB "A.txt" + newPts.length ∧
      ((create_embeddings envOkDoc sAB "A.txt" false).result.lookup "status" =
          some "success" →
        newPts.length = (ingestChunks envOkDoc "A.txt").length) :=
  create_embeddings_no_overwrite_accumulates envOkDoc sAB "A.txt" (by decide)

/-- Claim C6: if ingestion with `overwrite=true` of an existing file fails
at any step after the scoped delete (extraction, the empty-text check,
embedding, or the batch upsert), the call returns a structured error result
and the index holds zero points for that `file_path`: the old points were
already deleted and no new points were written. -/
theorem create_embeddings_failed_overwrite_zero_points (env : Env)
    (s : IndexState) (fp : String) (fc : FileContent)
    (hfc : env.fs fp = some fc)
    (h : (∃ e, extract_text env fp = Except.error e) ∨
      (∃ t, extract_text env fp = Except.ok t ∧ isBlank t = true) ∨
      (∃ t, extract_text env fp = Except.ok t ∧
        ∃ e, embedAll env (env.split t) = Except.error e) ∨
      env.upsertErr ≠ none) :
    (create_embeddings env s fp true).result.lookup "status" =
      some "error" ∧
    countFor (create_embeddings env s fp true).state fp = 0 := by
  rcases create_embeddings_shape env s fp true fc hfc with
    ⟨newPts, hstate, _, _, hfail⟩
  have hne : (create_embeddings env s fp true).result.lookup "status" ≠
      some "success" := by
    cases hxt : extract_text env fp with
    | error e =>
      rw [ce_extract_err env s fp true fc e hfc hxt]
      exact errResult_status_ne e _
    | ok t =>
      cases htr : isBlank t with
      | true =>
        rw [ce_empty env s fp true fc t hfc hxt htr]
        exact errResult_status_ne _ _
      | false =>
        cases hem : embedAll env (env.split t) with
        | error e =>
          rw [ce_embed_err env s fp true fc t e hfc hxt htr hem]
          exact errResult_status_ne e _
        | ok vecs =>
          cases hup : env.upsertErr with
          | some e =>
            rw [ce_upsert_err env s fp true fc t vecs e hfc hxt htr hem hup]
            exact errResult_status_ne e _
          | none =>
            exfalso
            rcases h with ⟨e, hx⟩ | ⟨t2, hx, htr2⟩ | ⟨t2, hx, e, hx2⟩ | hup2
            · rw [hxt] at hx
              exact absurd hx (by simp)
            · rw [hxt] at hx
              have ht2 := Except.ok.inj hx
              subst ht2
              rw [htr] at htr2
              exact absurd htr2 (by simp)
            · rw [hxt] at hx
              have ht2 := Except.ok.inj hx
              subst ht2
              rw [hem] at hx2
              exact absurd hx2 (by simp)
            · exact hup2 hup
  rcases hfail hne with ⟨hnil, m, hm⟩
  subst hnil
  constructor
  · rw [hm]
    rfl
  · rw [hstate]
    show (upsertList (afterDelete s fp true).points []).countP _ = 0
    rw [upsertList_nil]
    exact deleteByFilePath_count s fp

theorem create_embeddings_failed_overwrite_zero_points_witness :
    (create_embeddings envUpsertFail sAB "A.txt" true).result.lookup
        "status" = some "error" ∧
    countFor (create_embeddings envUpsertFail sAB "A.txt" true).state
      "A.txt" = 0 :=
  create_embeddings_failed_overwrite_zero_points envUpsertFail sAB "A.txt"
    (FileContent.other (Except.ok "hello world")) rfl
    (Or.inr (Or.inr (Or.inr (by decide))))

/-- Claim C1 counterexample: a concrete ingestion that succeeds, yet whose
result dictionary has no `chunk_count` key at all — the claimed result
shape `{status, message, chunk_count}` does not match the code, which
returns only `{status, message}` with the count embedded in the message. -/
theorem create_embeddings_no_chunk_count_field :
    (create_embeddings envOkDoc emptyState "doc.txt" true).result.lookup
        "status" = some "success" ∧
    (create_embeddings envOkDoc emptyState "doc.txt" true).result.lookup
        "chunk_count" = none ∧
    (create_embeddings envOkDoc emptyState "doc.txt" true).result =
      [("status", "success"), ("message", "Document added with 1 chunks")] := by
  refine ⟨?_, ?_, ?_⟩ <;> rfl

/-- Claim C1 (amended): on every successful ingestion the result is exactly
the two-field dictionary `{status: "success", message}`, where the message
reports the chunk count (`"Document added with k chunks"`) and `k` equals
the number of chunk points upserted for the file — which, after the scoped
delete, is also the number of points the index then holds for that path. -/
theorem create_embeddings_success_result_shape (env : Env) (s : IndexState)
    (fp : String) (hinv : goodState s)
    (hs : (create_embeddings env s fp true).result.lookup "status" =
      some "success") :
    ∃ k, (create_embeddings env s fp true).result =
        [("status", "success"),
         ("message", "Document added with " ++ toString k ++ " chunks")] ∧
      countFor (create_embeddings env s fp true).state fp = k := by
  cases hfc : env.fs fp with
  | none =>
    rw [ce_missing env s fp true hfc] at hs
    exact absurd hs (errResult_status_ne "File not found" s)
  | some fc =>
    rcases create_embeddings_shape env s fp true fc hfc with
      ⟨newPts, hstate, hmem, hsucc, _⟩
    rcases hsucc hs with ⟨_, hres⟩
    refine ⟨newPts.length, hres, ?_⟩
    rw [hstate]
    show (upsertList (afterDelete s fp true).points newPts).countP
      (fun p => matchesPath fp p) = newPts.length
    rw [upsertList_afterDelete_fresh s fp true newPts hinv
      (fun q hq => (hmem q hq).1)]
    rw [List.countP_append]
    have h0 : (afterDelete s fp true).points.countP
        (fun p => matchesPath fp p) = 0 := deleteByFilePath_count s fp
    rw [h0, Nat.zero_add]
    rw [List.countP_eq_length]
    intro q hq
    have := (hmem q hq).2.2
    simp [matchesPath, this]

theorem create_embeddings_success_result_shape_witness :
    ∃ k, (create_embeddings envOkDoc emptyState "doc.txt" true).result =
        [("status", "success"),
         ("message", "Document added with " ++ toString k ++ " chunks")] ∧
      countFor (create_embeddings envOkDoc emptyState "doc.txt" true).state
        "doc.txt" = k :=
  create_embeddings_success_result_shape envOkDoc emptyState "doc.txt"
    (by decide) rfl

/-- The result that the specification's words describe for a PDF: the plain
concatenation of per-page extracted text in page order, a page yielding no
text contributing the empty string.  Stated for comparison with
`extract_text`, which the source defines with a newline join. -/
def pdfConcatSpec (pages : List (Option String)) : String :=
  String.join (pages.map (fun p => p.getD ""))

/-- A filesystem where every path is a two-page PDF whose pages read
`a` and `b`. -/
def envPdfTwoPages : Env :=
  Env.mk (fun _ => some (FileContent.pdf [some "a", some "b"]))
    (fun t => [t]) (fun _ => Except.ok [1]) none

/-- Claim C8 counterexample: on a two-page PDF with pages `a` and `b`,
`extract_text` returns `"a\nb"` — the pages joined with a newline — not
their plain concatenation `"ab"` that the claim states. -/
theorem extract_text_pdf_not_plain_concat :
    extract_text envPdfTwoPages "d.pdf" = Except.ok "a\nb" ∧
    pdfConcatSpec [some "a", some "b"] = "ab" ∧
    extract_text envPdfTwoPages "d.pdf" ≠
      Except.ok (pdfConcatSpec [some "a", some "b"]) := by
  refine ⟨rfl, rfl, ?_⟩
  intro hx
  rw [show extract_text envPdfTwoPages "d.pdf" = Except.ok "a\nb" from rfl]
    at hx
  exact absurd (Except.ok.inj hx) (by decide)

/-- Claim C8 (amended): for every PDF file, `extract_text` succeeds —
never failing the whole document — and returns the per-page extracted text
in page order joined by single newlines, where a page yielding no text
contributes an empty string. -/
theorem extract_text_pdf_newline_join (env : Env) (fp : String)
    (pages : List (Option String))
    (h : env.fs fp = some (FileContent.pdf pages)) :
    extract_text env fp =
      Except.ok
        (String.intercalate "\n" (pages.map (fun p => p.getD ""))) := by
  simp [extract_text, h, extractBackend]

/-- A filesystem where every path is a three-page PDF whose middle page
yields no text. -/
def envPdfBlankPage : Env :=
  Env.mk (fun _ => some (FileContent.pdf [some "a", none, some "b"]))
    (fun t => [t]) (fun _ => Except.ok [1]) none

theorem extract_text_pdf_newline_join_witness :
    extract_text envPdfBlankPage "d.pdf" =
      Except.ok (String.intercalate "\n"
        ([some "a", none, some "b"].map (fun p => p.getD ""))) :=
  extract_text_pdf_newline_join envPdfBlankPage "d.pdf"
    [some "a", none, some "b"] rfl

/-- All four backend calls of `create_collection` succeed. -/
def noErr : CCEnv := CCEnv.mk none none none none

lemma contains_false_all_ne (s : QState)
    (h : (s.colls.map (fun c => c.name)).contains COLLECTION_NAME = false) :
    ∀ c ∈ s.colls, (c.name == COLLECTION_NAME) = false := by
  intro c hc
  rw [beq_eq_false_iff_ne]
  intro hname
  have hmem : COLLECTION_NAME ∈ s.colls.map (fun c2 => c2.name) :=
    List.mem_map.mpr ⟨c, hc, hname⟩
  rw [List.contains, List.elem_iff.mpr hmem] at h
  cases h

lemma contains_true_of_find (s : QState) (c : Collection)
    (h : findColl s = some c) :
    (s.colls.map (fun c2 => c2.name)).contains COLLECTION_NAME = true := by
  have hc := List.find?_some h
  have hmem := List.mem_of_find?_eq_some h
  have : COLLECTION_NAME ∈ s.colls.map (fun c2 => c2.name) :=
    List.mem_map.mpr ⟨c, hmem, beq_iff_eq.mp hc⟩
  rw [List.contains]
  exact List.elem_iff.mpr this

lemma find?_append_single (l : List Collection)
    (h : ∀ c ∈ l, (c.name == COLLECTION_NAME) = false) :
    (l ++ [Collection.mk COLLECTION_NAME 768 "Cosine" []]).find?
      (fun c => c.name == COLLECTION_NAME) =
      some (Collection.mk COLLECTION_NAME 768 "Cosine" []) := by
  induction l with
  | nil => rfl
  | cons c cs ih =>
    rw [List.cons_append, List.find?_cons_of_neg]
    · exact ih (fun c2 hc2 => h c2 (List.mem_cons_of_mem c hc2))
    · rw [h c (List.mem_cons_self c cs)]
      simp

lemma findColl_applyCreate (s : QState)
    (h : ∀ c ∈ s.colls, (c.name == COLLECTION_NAME) = false) :
    findColl (applyCreateCollection s) =
      some (Collection.mk COLLECTION_NAME 768 "Cosine" []) :=
  find?_append_single s.colls h

lemma find?_map_name_preserving (f : Collection → Collection)
    (hf : ∀ c, (f c).name = c.name) (l : List Collection) (c0 : Collection)
    (h : l.find? (fun c => c.name == COLLECTION_NAME) = some c0) :
    (l.map f).find? (fun c => c.name == COLLECTION_NAME) = some (f c0) := by
  induction l with
  | nil => cases h
  | cons c cs ih =>
    by_cases hb : (c.name == COLLECTION_NAME) = true
    · rw [List.find?_cons_of_pos cs hb] at h
      rw [List.map_cons, List.find?_cons_of_pos]
      · rw [Option.some.inj h]
      · rw [hf c]
        exact hb
    · rw [List.find?_cons_of_neg cs hb] at h
      rw [List.map_cons, List.find?_cons_of_neg]
      · exact ih h
      · rw [hf c]
        exact hb

lemma not_exists_of_contains_false (s : QState)
    (h : (s.colls.map (fun c => c.name)).contains COLLECTION_NAME = false) :
    ¬ ∃ a ∈ s.colls, a.name = COLLECTION_NAME := by
  rintro ⟨a, ha, hname⟩
  have hb := contains_false_all_ne s h a ha
  rw [beq_eq_false_iff_ne] at hb
  exact hb hname

/-- Claim C7: `create_collection` is idempotent.  When no collection of the
name exists it issues exactly one collection create (dimension 768, cosine
distance) followed by the `file_path` keyword index create, leaving the
collection present with its index; when the collection exists with its
payload index it issues no create operation and leaves the state untouched,
so running it at every process start is safe; when only the index is
missing it issues just the index create; and a failure of any of the four
backend calls it makes — listing the collections, creating the collection,
fetching the collection, or creating the payload index — propagates its
error to the caller instead of being swallowed. -/
theorem create_collection_idempotent (s : QState) (c : Collection)
    (e : String) (e2 e3 e4 : Option String) :
    ((s.colls.map (fun c2 => c2.name)).contains COLLECTION_NAME = false →
      create_collection noErr s = Except.ok
        (applyCreateIndex (applyCreateCollection s),
         [QOp.mkCollection COLLECTION_NAME 768 "Cosine",
          QOp.mkPayloadIndex COLLECTION_NAME "file_path"]) ∧
      findColl (applyCreateIndex (applyCreateCollection s)) =
        some (Collection.mk COLLECTION_NAME 768 "Cosine" ["file_path"])) ∧
    (findColl s = some c → c.payload_schema.contains "file_path" = true →
      create_collection noErr s = Except.ok (s, [])) ∧
    (findColl s = some c → c.payload_schema.contains "file_path" = false →
      create_collection noErr s =
        Except.ok (applyCreateIndex s,
          [QOp.mkPayloadIndex COLLECTION_NAME "file_path"])) ∧
    (create_collection (CCEnv.mk (some e) e2 e3 e4) s = Except.error e) ∧
    ((s.colls.map (fun c2 => c2.name)).contains COLLECTION_NAME = false →
      create_collection (CCEnv.mk none (some e) e3 e4) s =
        Except.error e) ∧
    (create_collection (CCEnv.mk none none (some e) e4) s =
      Except.error e) ∧
    ((s.colls.map (fun c2 => c2.name)).contains COLLECTION_NAME = false →
      create_collection (CCEnv.mk none none none (some e)) s =
        Except.error e) ∧
    (findColl s = some c → c.payload_schema.contains "file_path" = false →
      create_collection (CCEnv.mk none none none (some e)) s =
        Except.error e) := by
  refine ⟨?_, ?_, ?_, rfl, ?_, ?_, ?_, ?_⟩
  · intro hcontains
    have hall := contains_false_all_ne s hcontains
    have hfind := findColl_applyCreate s hall
    have hne := not_exists_of_contains_false s hcontains
    constructor
    · simp [create_collection, noErr, hne, ensureIndexStep, hfind]
    · have := find?_map_name_preserving
        (fun c2 => if c2.name == COLLECTION_NAME then
          Collection.mk c2.name c2.dim c2.metric
            (c2.payload_schema ++ ["file_path"])
          else c2)
        (fun c2 => by
          by_cases hb : (c2.name == COLLECTION_NAME) = true <;> simp [hb])
        (applyCreateCollection s).colls
        (Collection.mk COLLECTION_NAME 768 "Cosine" []) hfind
      simpa [applyCreateIndex, findColl] using this
  · intro hfind hhas
    have hpc := List.find?_some hfind
    have hex : ∃ a ∈ s.colls, a.name = COLLECTION_NAME :=
      ⟨c, List.mem_of_find?_eq_some hfind, beq_iff_eq.mp hpc⟩
    have hhas2 : "file_path" ∈ c.payload_schema := by
      rw [List.contains] at hhas
      exact List.elem_iff.mp hhas
    simp [create_collection, noErr, hex, ensureIndexStep, hfind, hhas2]
  · intro hfind hno
    have hpc := List.find?_some hfind
    have hex : ∃ a ∈ s.colls, a.name = COLLECTION_NAME :=
      ⟨c, List.mem_of_find?_eq_some hfind, beq_iff_eq.mp hpc⟩
    have hno2 : "file_path" ∉ c.payload_schema := by
      intro hm
      rw [List.contains, List.elem_iff.mpr hm] at hno
      cases hno
    simp [create_collection, noErr, hex, ensureIndexStep, hfind, hno2]
  · intro hcontains
    have hne := not_exists_of_contains_false s hcontains
    simp [create_collection, hne]
  · simp [create_collection, ensureIndexStep]
  · intro hcontains
    have hall := contains_false_all_ne s hcontains
    have hfind := findColl_applyCreate s hall
    have hne := not_exists_of_contains_false s hcontains
    simp [create_collection, hne, ensureIndexStep, hfind]
  · intro hfind hno
    have hpc := List.find?_some hfind
    have hex : ∃ a ∈ s.colls, a.name = COLLECTION_NAME :=
      ⟨c, List.mem_of_find?_eq_some hfind, beq_iff_eq.mp hpc⟩
    have hno2 : "file_path" ∉ c.payload_schema := by
      intro hm
      rw [List.contains, List.elem_iff.mpr hm] at hno
      cases hno
    simp [create_collection, hex, ensureIndexStep, hfind, hno2]

/-- A backend state already holding the collection together with its
`file_path` payload index. -/
def sReady : QState :=
  QState.mk [Collection.mk COLLECTION_NAME 768 "Cosine" ["file_path"]]

/-- A backend state holding the collection but not its payload index. -/
def sNoIndex : QState :=
  QState.mk [Collection.mk COLLECTION_NAME 768 "Cosine" []]

theorem create_collection_idempotent_witness :
    create_collection noErr sReady = Except.ok (sReady, []) ∧
    create_collection (CCEnv.mk (some "listing down") none none none)
      sReady = Except.error "listing down" ∧
    create_collection (CCEnv.mk none (some "create down") none none)
      (QState.mk []) = Except.error "create down" ∧
    create_collection (CCEnv.mk none none (some "get down") none)
      sReady = Except.error "get down" ∧
    create_collection (CCEnv.mk none none none (some "index down"))
      sNoIndex = Except.error "index down" := by
  have h1 := create_collection_idempotent sReady
    (Collection.mk COLLECTION_NAME 768 "Cosine" ["file_path"])
    "listing down" none none none
  have h2 := create_collection_idempotent (QState.mk [])
    (Collection.mk COLLECTION_NAME 768 "Cosine" [])
    "create down" none none none
  have h3 := create_collection_idempotent sReady
    (Collection.mk COLLECTION_NAME 768 "Cosine" ["file_path"])
    "get down" none none none
  have h4 := create_collection_idempotent sNoIndex
    (Collection.mk COLLECTION_NAME 768 "Cosine" [])
    "index down" none none none
  exact ⟨h1.2.1 rfl rfl, h1.2.2.2.1, h2.2.2.2.2.1 rfl,
    h3.2.2.2.2.2.1, h4.2.2.2.2.2.2.2 rfl rfl⟩

end AgenticRag
